import Mathlib

/-!
Verification of the format-selection and stream-relay policy of a small
YouTube-download web application.

The development shallowly embeds the two route handlers (the download GET
handler and the metadata POST handler) and the client's chunk-reading
progress loop.  JavaScript numbers appearing in the code are modelled as
exact integers (`Int`/`Nat`); `Number(...)` conversions that can produce
`NaN` are modelled as `Option Int` with `none` standing for `NaN`;
absent (`null`/`undefined`) values are modelled with `Option`.
-/

/-! ## JavaScript primitives used by the handlers -/

/-- Models the ECMAScript `Number(string)` conversion for the string shapes
this application feeds it (query parameters and `lengthSeconds` fields):
the empty string converts to `0`, a string of decimal digits converts to
its value, and every other string is treated as `NaN`, modelled as
`none`. -/
def jsNumber (s : String) : Option Int :=
  if s = "" then some 0
  else if s.toList.all (fun c => c.isDigit) then
    some ((s.toList.foldl (fun n c => n * 10 + (c.toNat - 48)) 0 : Nat) : Int)
  else none

/-- Helper for `listHasSub`: does `sub` occur at the head of `l`? -/
def listStarts : List Char → List Char → Bool
  | _, [] => true
  | [], _ :: _ => false
  | a :: l, b :: m => a == b && listStarts l m

/-- Helper for `jsIncludes`: does `sub` occur contiguously anywhere in `l`? -/
def listHasSub (l sub : List Char) : Bool :=
  match l with
  | [] => sub.isEmpty
  | _ :: t => listStarts l sub || listHasSub t sub

/-- Models the ECMAScript `String.prototype.includes` test. -/
def jsIncludes (s sub : String) : Bool :=
  listHasSub s.toList sub.toList

/-- Models `s.replace(/p.*JOKER/, '')` as used on quality labels such as
`"1080p60"`: everything from the first `'p'` on is removed (quality labels
contain no newline, so the regex always reaches the end of the string).
Here JOKER stands for the regex dot. -/
def stripAfterP (s : String) : String :=
  String.mk (s.toList.takeWhile (fun c => c ≠ 'p'))

/-- Models `m.split(';')[0]`: the part of the string before the first
semicolon (used to strip MIME-type parameters). -/
def stripParams (m : String) : String :=
  String.mk (m.toList.takeWhile (fun c => c ≠ ';'))

/-! ## Data model -/

/-- One entry of the format list returned by `ytdl.getInfo` (the Resolver).
Fields are the ones the application reads; optional library fields are
`Option`-valued (`none` models `undefined`).  `contentLength` is a string
in the library's format objects, as the handler uses it verbatim as a
header value. -/
structure Format where
  itag : Int
  hasAudio : Bool
  hasVideo : Bool
  container : String
  qualityLabel : Option String
  audioBitrate : Option Nat
  bitrate : Option Nat
  audioSampleRate : Option String
  mimeType : Option String
  contentLength : Option String
deriving DecidableEq

/-- The `videoDetails` object of the Resolver's metadata response, reduced
to the fields the handlers read. -/
structure VideoDetails where
  title : String
  authorName : String
  thumbnails : List String
  lengthSeconds : String
deriving DecidableEq

/-- The Resolver's metadata response: video details plus the full format
list, in the Resolver's native order. -/
structure VideoInfo where
  videoDetails : VideoDetails
  formats : List Format
deriving DecidableEq

/-- The external video-extraction capability (ytdl-core).  `getInfo`
returning `Except.error` models the library throwing; `openStream` models
`ytdl(url, { quality, filter })`, yielding the byte chunks of the stream
for a url, a chosen itag and a filter string. -/
structure Resolver where
  validateURL : String → Bool
  getInfo : String → Except Unit VideoInfo
  openStream : String → Int → String → List Nat

/-! ## The ECMAScript stable sort -/

/-- Stable insertion of `x` into `s` with respect to comparator `c`
(negative means `x` sorts earlier): `x` is placed before the first element
it does not sort strictly after, so elements comparing equal keep their
original relative order. -/
def jsInsert {α : Type} (c : α → α → Int) (x : α) : List α → List α
  | [] => [x]
  | y :: ys => if c x y ≤ 0 then x :: y :: ys else y :: jsInsert c x ys

/-- Models `Array.prototype.sort(c)` (ES2019 requires a stable sort; the
result is uniquely determined whenever the comparator is consistent, which
every theorem below guarantees through its hypotheses). -/
def jsSort {α : Type} (c : α → α → Int) (l : List α) : List α :=
  l.foldr (jsInsert c) []

/-! ## Format selection (download route, src/unnamed/part_000 lines 34-56) -/

/-- The numeric value `Number((f.qualityLabel ?? '').replace(/p.*JOKER/, ''))`
parsed from a quality label (JOKER again standing for the regex dot);
`none` models `NaN`. -/
def qualityNum (f : Format) : Option Int :=
  jsNumber (stripAfterP (f.qualityLabel.getD ""))

/-- The parsed quality value with `NaN` defaulted; only used in theorem
statements under hypotheses that rule the `NaN` case out. -/
def qKey (f : Format) : Int :=
  (qualityNum f).getD 0

/-- The audio sort key `Number(f.audioBitrate ?? 0)`. -/
def aKey (f : Format) : Int :=
  ((f.audioBitrate.getD 0 : Nat) : Int)

/-- The audio comparator `(a, b) => Number(b.audioBitrate ?? 0) - Number(a.audioBitrate ?? 0)`. -/
def audioCmp (a b : Format) : Int :=
  aKey b - aKey a

/-- The video comparator `(a, b) => qualityB - qualityA` on parsed quality
labels.  When either label fails to parse the subtraction is `NaN`, and
the ECMAScript SortCompare operation coerces a `NaN` comparator result to
`+0`, so those pairs compare as equal. -/
def videoCmp (a b : Format) : Int :=
  match qualityNum b, qualityNum a with
  | some qb, some qa => qb - qa
  | _, _ => 0

/-- The filter `formats.filter((f) => f.hasAudio && !f.hasVideo)` feeding
the default audio selection. -/
def audioCandidates (formats : List Format) : List Format :=
  formats.filter (fun f => f.hasAudio && !f.hasVideo)

/-- The filter `formats.filter((f) => f.hasVideo && f.hasAudio && f.container === 'mp4')`
feeding the default video selection. -/
def videoCandidates (formats : List Format) : List Format :=
  formats.filter (fun f => f.hasVideo && f.hasAudio && f.container == "mp4")

/-- The explicit-itag lookup:
`const targetItag = itagParam ? Number(itagParam) : undefined;`
`let selectedFormat = targetItag ? formats.find((f) => f.itag === targetItag) : undefined;`
A `null` parameter, the empty string (falsy string), `NaN` and `0` (falsy
numbers) all leave `selectedFormat` undefined. -/
def explicitSelect (formats : List Format) (itagParam : Option String) : Option Format :=
  match itagParam with
  | none => none
  | some s =>
    if s == "" then none
    else
      match jsNumber s with
      | none => none
      | some n => if n == 0 then none else formats.find? (fun f => f.itag == n)

/-- The default-quality policy (the `if (!selectedFormat)` block): sort the
kind's candidate list with the kind's comparator and take index `0`, with
the code's literal `?? formats.find(...)` fallback after it. -/
def defaultSelect (formats : List Format) (ty : String) : Option Format :=
  if ty == "audio" then
    match (jsSort audioCmp (audioCandidates formats)).head? with
    | some f => some f
    | none => formats.find? (fun f => f.hasAudio && !f.hasVideo)
  else
    match (jsSort videoCmp (videoCandidates formats)).head? with
    | some f => some f
    | none => formats.find? (fun f => f.hasVideo && f.hasAudio)

/-- The complete selection performed by the download handler: explicit
itag lookup first, default policy when it yields nothing. -/
def selectFormat (formats : List Format) (ty : String) (itagParam : Option String) :
    Option Format :=
  match explicitSelect formats itagParam with
  | some f => some f
  | none => defaultSelect formats ty

/-! ## The download route handler (src/unnamed/part_000) -/

/-- The `inferExtension` helper of the download route.  Note that in the
source an empty MIME string is falsy and also yields `"bin"`; the model
agrees because no search string occurs in the empty string. -/
def inferExtension (mimeType : Option String) : String :=
  match mimeType with
  | none => "bin"
  | some m =>
    if jsIncludes m "mp4" then "mp4"
    else if jsIncludes m "webm" then "webm"
    else if jsIncludes m "mpeg" then "mp3"
    else if jsIncludes m "ogg" then "ogg"
    else "bin"

/-- Modelled from the spec: the repository imports `toSafeFileName` from
`src/lib/filename`, which is not among the provided sources.  The spec
says only that filenames are "sanitized to a safe-character subset", so we
model it as keeping ASCII letters, digits, spaces, dashes and underscores
and replacing every other character with an underscore.  No claim below
depends on its exact behaviour. -/
def toSafeFileName (s : String) : String :=
  String.mk (s.toList.map (fun c =>
    if c.isAlphanum || c == ' ' || c == '-' || c == '_' then c else '_'))

/-- The `Content-Type` header value
`selectedFormat.mimeType?.split(';')[0] ?? 'application/octet-stream'`. -/
def mimeHeaderValue (mimeType : Option String) : String :=
  match mimeType with
  | none => "application/octet-stream"
  | some m => stripParams m

/-- The `Content-Disposition` header value built from the sanitized title
and the inferred extension. -/
def attachmentHeaderValue (title : String) (mimeType : Option String) : String :=
  "attachment; filename=\"" ++ toSafeFileName title ++ "." ++ inferExtension mimeType ++ "\""

/-- The conditional `Content-Length` header:
`...(selectedFormat.contentLength ? \x7b 'Content-Length': ... \x7d : \x7b\x7d)`.
An absent or empty (falsy) declared length omits the header. -/
def contentLengthHeader (c : Option String) : Option String :=
  match c with
  | none => none
  | some s => if s == "" then none else some s

/-- The filter string passed to `ytdl(url, ...)`:
`type === 'audio' ? 'audioonly' : 'videoandaudio'`. -/
def streamFilter (ty : String) : String :=
  if ty == "audio" then "audioonly" else "videoandaudio"

/-- The download route's response, by status: `badRequest` is the 400
JSON error, `notFound` the 404 `NoMatchingFormat` error, `serverError`
the 500 error, and `ok` the 200 streamed response with its headers and
body chunks. -/
inductive DownloadResponse where
  | badRequest (error : String)
  | notFound (error : String)
  | serverError (error : String)
  | ok (contentType : String) (contentDisposition : String)
      (contentLength : Option String) (body : List Nat)
deriving DecidableEq

/-- The body of the download GET handler after the `type` parameter has
been defaulted (`searchParams.get('type') ?? 'video'`). -/
def handleDownload (r : Resolver) (urlParam : Option String) (ty : String)
    (itagParam : Option String) : DownloadResponse :=
  match urlParam with
  | none => DownloadResponse.badRequest "Please provide a valid YouTube URL."
  | some url =>
    if r.validateURL url then
      match r.getInfo url with
      | Except.error _ =>
        DownloadResponse.serverError "Unable to process download. Please try again later."
      | Except.ok info =>
        match selectFormat info.formats ty itagParam with
        | none => DownloadResponse.notFound "No matching format available for download."
        | some f =>
          DownloadResponse.ok (mimeHeaderValue f.mimeType)
            (attachmentHeaderValue info.videoDetails.title f.mimeType)
            (contentLengthHeader f.contentLength)
            (r.openStream url f.itag (streamFilter ty))
    else DownloadResponse.badRequest "Please provide a valid YouTube URL."

/-- The download GET handler, `urlParam`/`typeParam`/`itagParam` being the
raw query parameters (`none` models an absent parameter). -/
def GET (r : Resolver) (urlParam typeParam itagParam : Option String) : DownloadResponse :=
  handleDownload r urlParam (typeParam.getD "video") itagParam

/-! ## The metadata route handler (src/unnamed/part_001) -/

/-- Modelled from the spec: `ytdl.filterFormats` belongs to the external
video-extraction library (the Resolver collaborator), whose source is not
part of this repository.  Per the spec, the `'videoandaudio'` filter keeps
the formats with both tracks and the `'audioonly'` filter keeps the
formats with an audio track and no video track. -/
def filterFormats (formats : List Format) (filter : String) : List Format :=
  if filter == "videoandaudio" then formats.filter (fun f => f.hasVideo && f.hasAudio)
  else if filter == "audioonly" then formats.filter (fun f => f.hasAudio && !f.hasVideo)
  else formats

/-- One entry of the metadata response's `mp4Formats` list. -/
structure VideoFormatSummary where
  itag : Int
  qualityLabel : Option String
  container : String
  bitrate : Option Nat
deriving DecidableEq

/-- One entry of the metadata response's `audioFormats` list. -/
structure AudioFormatSummary where
  itag : Int
  bitrate : Option Nat
  container : String
  audioSampleRate : Option String
deriving DecidableEq

/-- The projection applied to each combined format. -/
def mapVideoSummary (f : Format) : VideoFormatSummary :=
  { itag := f.itag, qualityLabel := f.qualityLabel, container := f.container,
    bitrate := f.bitrate }

/-- The projection applied to each audio-only format. -/
def mapAudioSummary (f : Format) : AudioFormatSummary :=
  { itag := f.itag, bitrate := f.bitrate, container := f.container,
    audioSampleRate := f.audioSampleRate }

/-- The `mp4Formats` list of the metadata response:
`ytdl.filterFormats(formats, 'videoandaudio').filter((f) => f.mimeType?.includes('mp4')).map(...)`. -/
def infoMp4Formats (formats : List Format) : List VideoFormatSummary :=
  (((filterFormats formats "videoandaudio").filter
      (fun f => (f.mimeType.map (fun m => jsIncludes m "mp4")).getD false)).map
    mapVideoSummary)

/-- The `audioFormats` list of the metadata response:
`ytdl.filterFormats(formats, 'audioonly').filter((f) => f.mimeType?.includes('audio')).map(...)`. -/
def infoAudioFormats (formats : List Format) : List AudioFormatSummary :=
  (((filterFormats formats "audioonly").filter
      (fun f => (f.mimeType.map (fun m => jsIncludes m "audio")).getD false)).map
    mapAudioSummary)

/-- The metadata route's response. -/
inductive InfoResponse where
  | badRequest (error : String)
  | serverError (error : String)
  | ok (title : String) (author : String) (thumbnailUrl : Option String)
      (lengthSeconds : Option Int) (mp4Formats : List VideoFormatSummary)
      (audioFormats : List AudioFormatSummary)
deriving DecidableEq

/-- The metadata POST handler; `urlField` is the `url` field of the JSON
body (`none` models a body whose `url` is not a string). -/
def POST (r : Resolver) (urlField : Option String) : InfoResponse :=
  match urlField with
  | none => InfoResponse.badRequest "Please provide a valid YouTube URL."
  | some url =>
    if r.validateURL url then
      match r.getInfo url with
      | Except.error _ =>
        InfoResponse.serverError "Unable to fetch video information. Please try again."
      | Except.ok info =>
        InfoResponse.ok info.videoDetails.title info.videoDetails.authorName
          info.videoDetails.thumbnails.getLast?
          (jsNumber info.videoDetails.lengthSeconds)
          (infoMp4Formats info.formats)
          (infoAudioFormats info.formats)
    else InfoResponse.badRequest "Please provide a valid YouTube URL."

/-! ## The client relay consumer (src/app/page.tsx, handleDownload) -/

/-- The value `Math.round((received / total) * 100)` for non-negative
exact arithmetic: `Math.round x = Nat.floor (x + 1/2)`, and
`Nat.floor (100 * received / total + 1/2) = (200 * received + total) / (2 * total)`
with truncating natural division. -/
def jsRoundPct (received total : Nat) : Nat :=
  (200 * received + total) / (2 * total)

/-- The sequence of `setProgress` values emitted inside the read loop,
one per received chunk (`chunks` lists the chunk byte lengths):
`received += value.length; if (contentLength) setProgress(Math.min(99, Math.round((received / contentLength) * 100)))`.
A missing `Content-Length` header parses to `0` (`Number('0')`), which is
falsy, so no per-chunk update happens then. -/
def relayProgressLoop (total received : Nat) : List Nat → List Nat
  | [] => []
  | c :: cs =>
    if total = 0 then relayProgressLoop total (received + c) cs
    else min 99 (jsRoundPct (received + c) total) :: relayProgressLoop total (received + c) cs

/-- The complete sequence of displayed progress values of one download:
`setProgress(0)` before the loop, the per-chunk updates, then
`setProgress(100)` after the stream is exhausted. -/
def clientProgressTrace (total : Nat) (chunks : List Nat) : List Nat :=
  0 :: (relayProgressLoop total 0 chunks ++ [100])

/-- The running received-byte counter after each chunk. -/
def prefixSumsFrom (acc : Nat) : List Nat → List Nat
  | [] => []
  | c :: cs => (acc + c) :: prefixSumsFrom (acc + c) cs

/-! ## Properties of the stable sort -/

/-- Inserting never produces the empty list. -/
theorem jsInsert_ne_nil {α : Type} (c : α → α → Int) (x : α) (s : List α) :
    jsInsert c x s ≠ [] := by
  cases s with
  | nil => simp [jsInsert]
  | cons y ys => simp only [jsInsert]; split <;> simp

/-- The sort is empty exactly when its input is. -/
theorem jsSort_eq_nil_iff {α : Type} (c : α → α → Int) (l : List α) :
    jsSort c l = [] ↔ l = [] := by
  cases l with
  | nil => simp [jsSort]
  | cons a l =>
    constructor
    · intro h
      exact absurd h (jsInsert_ne_nil c a (jsSort c l))
    · intro h
      cases h

/-- Membership in an insertion. -/
theorem mem_jsInsert {α : Type} (c : α → α → Int) (x : α) (s : List α) (z : α) :
    z ∈ jsInsert c x s ↔ z = x ∨ z ∈ s := by
  induction s with
  | nil => simp [jsInsert]
  | cons y ys ih =>
    simp only [jsInsert]
    split
    · simp [List.mem_cons]
    · simp only [List.mem_cons, ih]
      tauto

/-- Sorting preserves membership. -/
theorem mem_jsSort {α : Type} (c : α → α → Int) (l : List α) (z : α) :
    z ∈ jsSort c l ↔ z ∈ l := by
  induction l with
  | nil => simp [jsSort]
  | cons a l ih =>
    show z ∈ jsInsert c a (jsSort c l) ↔ z ∈ a :: l
    rw [mem_jsInsert, List.mem_cons, ih]

/-- Insertion only consults the comparator on the inserted element against
members of the list. -/
theorem jsInsert_congr {α : Type} (c c' : α → α → Int) (x : α) (s : List α)
    (h : ∀ y ∈ s, c x y = c' x y) : jsInsert c x s = jsInsert c' x s := by
  induction s with
  | nil => rfl
  | cons y ys ih =>
    have hy := h y (List.mem_cons_self y ys)
    by_cases hc : c' x y ≤ 0
    · simp [jsInsert, hy, hc]
    · simp [jsInsert, hy, hc, ih (fun z hz => h z (List.mem_cons_of_mem y hz))]

/-- Two comparators agreeing on the list's elements sort it identically. -/
theorem jsSort_congr {α : Type} (c c' : α → α → Int) (l : List α)
    (h : ∀ x ∈ l, ∀ y ∈ l, c x y = c' x y) : jsSort c l = jsSort c' l := by
  induction l with
  | nil => rfl
  | cons a l ih =>
    show jsInsert c a (jsSort c l) = jsInsert c' a (jsSort c' l)
    rw [ih (fun x hx y hy =>
      h x (List.mem_cons_of_mem a hx) y (List.mem_cons_of_mem a hy))]
    apply jsInsert_congr
    intro y hy
    exact h a (List.mem_cons_self a l) y
      (List.mem_cons_of_mem a ((mem_jsSort c' l y).mp hy))

/-- The comparator `(a, b) => key b - key a`, i.e. sorting in descending
key order. -/
def keyCmp {α : Type} (key : α → Int) (a b : α) : Int :=
  key b - key a

/-- The first element of the list attaining the maximal key (the element a
stable descending sort puts at index 0). -/
def firstMaxBy {α : Type} (key : α → Int) : List α → Option α
  | [] => none
  | x :: xs =>
    match firstMaxBy key xs with
    | none => some x
    | some m => if key m ≤ key x then some x else some m

/-- The head of the stable descending sort is the first maximal element. -/
theorem jsSort_head_firstMaxBy {α : Type} (key : α → Int) (l : List α) :
    (jsSort (keyCmp key) l).head? = firstMaxBy key l := by
  induction l with
  | nil => rfl
  | cons x l ih =>
    show (jsInsert (keyCmp key) x (jsSort (keyCmp key) l)).head? = firstMaxBy key (x :: l)
    cases hsl : jsSort (keyCmp key) l with
    | nil =>
      have hl : l = [] := (jsSort_eq_nil_iff _ _).mp hsl
      subst hl
      rfl
    | cons y ys =>
      rw [hsl] at ih
      simp only [firstMaxBy]
      rw [← ih]
      simp only [List.head?_cons]
      by_cases hc : key y ≤ key x
      · have hcc : keyCmp key x y ≤ 0 := by simp only [keyCmp]; omega
        simp [jsInsert, hcc, hc]
      · have hcc : ¬ keyCmp key x y ≤ 0 := by simp only [keyCmp]; omega
        simp [jsInsert, hcc, hc]

/-- `firstMaxBy` finds something exactly on nonempty lists. -/
theorem firstMaxBy_eq_none_iff {α : Type} (key : α → Int) (l : List α) :
    firstMaxBy key l = none ↔ l = [] := by
  cases l with
  | nil => simp [firstMaxBy]
  | cons x xs =>
    simp only [firstMaxBy]
    constructor
    · intro h
      cases hm : firstMaxBy key xs with
      | none => rw [hm] at h; cases h
      | some m =>
        rw [hm] at h
        by_cases hc : key m ≤ key x <;> simp [hc] at h
    · intro h
      cases h

/-- The element found by `firstMaxBy` bounds every key of the list. -/
theorem firstMaxBy_le {α : Type} (key : α → Int) (l : List α) (m : α)
    (h : firstMaxBy key l = some m) : ∀ f ∈ l, key f ≤ key m := by
  induction l generalizing m with
  | nil => simp [firstMaxBy] at h
  | cons x xs ih =>
    intro f hf
    simp only [firstMaxBy] at h
    cases hm : firstMaxBy key xs with
    | none =>
      simp only [hm] at h
      have hx : x = m := by injection h
      have hxs : xs = [] := (firstMaxBy_eq_none_iff key xs).mp hm
      subst hxs
      rcases List.mem_cons.mp hf with rfl | h2
      · exact le_of_eq (congrArg key hx)
      · cases h2
    | some m' =>
      simp only [hm] at h
      by_cases hc : key m' ≤ key x
      · rw [if_pos hc] at h
        have hx : x = m := by injection h
        rcases List.mem_cons.mp hf with rfl | h2
        · exact le_of_eq (congrArg key hx)
        · exact le_trans (le_trans (ih m' hm f h2) hc) (le_of_eq (congrArg key hx))
      · rw [if_neg hc] at h
        have hx : m' = m := by injection h
        rcases List.mem_cons.mp hf with rfl | h2
        · exact le_trans (le_of_lt (lt_of_not_le hc)) (le_of_eq (congrArg key hx))
        · exact le_trans (ih m' hm f h2) (le_of_eq (congrArg key hx))

/-- Characterisation of `firstMaxBy`: it splits the list around an element
that every earlier element is strictly below and every later element is at
most equal to. -/
theorem firstMaxBy_spec {α : Type} (key : α → Int) (l : List α) (g : α)
    (h : firstMaxBy key l = some g) :
    ∃ l1 l2, l = l1 ++ g :: l2 ∧ (∀ f ∈ l1, key f < key g) ∧ (∀ f ∈ l2, key f ≤ key g) := by
  induction l generalizing g with
  | nil => simp [firstMaxBy] at h
  | cons x xs ih =>
    simp only [firstMaxBy] at h
    cases hm : firstMaxBy key xs with
    | none =>
      have hxs : xs = [] := (firstMaxBy_eq_none_iff key xs).mp hm
      simp only [hm] at h
      have hg : x = g := by injection h
      subst hg
      exact ⟨[], [], by simp [hxs], by simp, by simp [hxs]⟩
    | some m =>
      simp only [hm] at h
      by_cases hc : key m ≤ key x
      · rw [if_pos hc] at h
        have hg : x = g := by injection h
        subst hg
        refine ⟨[], xs, by simp, by simp, ?_⟩
        intro f hf
        exact le_trans (firstMaxBy_le key xs m hm f hf) hc
      · rw [if_neg hc] at h
        have hg : m = g := by injection h
        subst hg
        obtain ⟨l1, l2, hdec, hlt, hle⟩ := ih m hm
        refine ⟨x :: l1, l2, by simp [hdec], ?_, hle⟩
        intro f hf
        rcases List.mem_cons.mp hf with rfl | h1
        · exact lt_of_not_le hc
        · exact hlt f h1

/-! ## Bridging the handler's sorts to `firstMaxBy` -/

/-- The audio comparator is exactly descending comparison on `aKey`. -/
theorem audioCmp_eq_keyCmp : audioCmp = keyCmp aKey := rfl

/-- The default audio selection in terms of `firstMaxBy`. -/
theorem defaultSelect_audio_eq (formats : List Format) :
    defaultSelect formats "audio" =
      match firstMaxBy aKey (audioCandidates formats) with
      | some f => some f
      | none => formats.find? (fun f => f.hasAudio && !f.hasVideo) := by
  simp only [defaultSelect]
  rw [if_pos (by decide : (("audio" : String) == "audio") = true)]
  rw [audioCmp_eq_keyCmp, jsSort_head_firstMaxBy]

/-- On candidate lists whose quality labels all parse, the video comparator
agrees with descending comparison on `qKey`, so the default video selection
is `firstMaxBy qKey`. -/
theorem defaultSelect_video_eq (formats : List Format)
    (hq : ∀ f ∈ videoCandidates formats, (qualityNum f).isSome = true) :
    defaultSelect formats "video" =
      match firstMaxBy qKey (videoCandidates formats) with
      | some f => some f
      | none => formats.find? (fun f => f.hasVideo && f.hasAudio) := by
  have hcongr : jsSort videoCmp (videoCandidates formats)
      = jsSort (keyCmp qKey) (videoCandidates formats) := by
    apply jsSort_congr
    intro x hx y hy
    obtain ⟨qx, hqx⟩ := Option.isSome_iff_exists.mp (hq x hx)
    obtain ⟨qy, hqy⟩ := Option.isSome_iff_exists.mp (hq y hy)
    simp [videoCmp, keyCmp, qKey, hqx, hqy]
  simp only [defaultSelect]
  rw [if_neg (by decide : ¬ ((("video" : String) == "audio") = true))]
  rw [hcongr, jsSort_head_firstMaxBy]

/-- With no usable explicit itag, selection is the default policy. -/
theorem selectFormat_of_explicit_none (formats : List Format) (ty : String)
    (itagParam : Option String) (hx : explicitSelect formats itagParam = none) :
    selectFormat formats ty itagParam = defaultSelect formats ty := by
  simp only [selectFormat, hx]

/-! ## Concrete fixtures used by witnesses and counterexamples -/

/-- A 720p60 combined mp4 format. -/
def fmt720 : Format :=
  { itag := 22, hasAudio := true, hasVideo := true, container := "mp4",
    qualityLabel := some "720p60", audioBitrate := some 192, bitrate := some 2000000,
    audioSampleRate := none, mimeType := some "video/mp4; codecs=avc1",
    contentLength := some "2000" }

/-- A 1080p combined mp4 format. -/
def fmt1080 : Format :=
  { itag := 37, hasAudio := true, hasVideo := true, container := "mp4",
    qualityLabel := some "1080p", audioBitrate := some 192, bitrate := some 4000000,
    audioSampleRate := none, mimeType := some "video/mp4; codecs=avc1",
    contentLength := some "4000" }

/-- A 480p combined mp4 format. -/
def fmt480 : Format :=
  { itag := 18, hasAudio := true, hasVideo := true, container := "mp4",
    qualityLabel := some "480p", audioBitrate := some 96, bitrate := some 1000000,
    audioSampleRate := none, mimeType := some "video/mp4; codecs=avc1",
    contentLength := some "1000" }

/-- The example list of combined canonical-container formats with labels
720p60, 1080p and 480p. -/
def demoVideoList : List Format := [fmt720, fmt1080, fmt480]

/-- An audio-only format with bit rate 128000. -/
def fmtA128 : Format :=
  { itag := 140, hasAudio := true, hasVideo := false, container := "mp4",
    qualityLabel := none, audioBitrate := some 128000, bitrate := some 128000,
    audioSampleRate := some "44100", mimeType := some "audio/mp4; codecs=mp4a",
    contentLength := some "900" }

/-- An audio-only format with bit rate 160000. -/
def fmtA160 : Format :=
  { itag := 251, hasAudio := true, hasVideo := false, container := "webm",
    qualityLabel := none, audioBitrate := some 160000, bitrate := some 160000,
    audioSampleRate := some "48000", mimeType := some "audio/webm; codecs=opus",
    contentLength := some "1100" }

/-- An audio-only format with bit rate 96000. -/
def fmtA96 : Format :=
  { itag := 250, hasAudio := true, hasVideo := false, container := "webm",
    qualityLabel := none, audioBitrate := some 96000, bitrate := some 96000,
    audioSampleRate := some "48000", mimeType := some "audio/webm; codecs=opus",
    contentLength := some "700" }

/-- The example list of audio-only formats with bit rates
128000, 160000 and 96000. -/
def demoAudioList : List Format := [fmtA128, fmtA160, fmtA96]

/-- An audio-only format whose itag is the falsy number 0. -/
def fmtItagZero : Format :=
  { itag := 0, hasAudio := true, hasVideo := false, container := "webm",
    qualityLabel := none, audioBitrate := some 50000, bitrate := some 50000,
    audioSampleRate := some "48000", mimeType := some "audio/webm; codecs=opus",
    contentLength := some "500" }

/-- A combined (audio and video) format, used where no audio-only format
exists. -/
def fmtCombinedOnly : Format :=
  { itag := 22, hasAudio := true, hasVideo := true, container := "mp4",
    qualityLabel := some "720p", audioBitrate := some 192, bitrate := some 2000000,
    audioSampleRate := none, mimeType := some "video/mp4; codecs=avc1",
    contentLength := some "2000" }

/-! ## C1: default video selection -/

/-- C1.  With no usable explicit format id and kind video, if the
combined canonical-container (mp4) candidate list is nonempty (and its
quality labels parse to numbers), the handler selects the first candidate,
in the Resolver's native order, whose parsed quality value is maximal:
the candidate list splits as `l1 ++ g :: l2` with every format in `l1`
strictly below `g` and every format in `l2` at most `g`.  If no such
candidate exists, the handler falls back to the first format, in native
order, with both tracks in any container. -/
theorem c1_video_default_selection (formats : List Format) (itagParam : Option String)
    (hx : explicitSelect formats itagParam = none)
    (hq : ∀ f ∈ videoCandidates formats, (qualityNum f).isSome = true) :
    (videoCandidates formats ≠ [] →
      ∃ g l1 l2, selectFormat formats "video" itagParam = some g ∧
        videoCandidates formats = l1 ++ g :: l2 ∧
        (∀ f ∈ l1, qKey f < qKey g) ∧ (∀ f ∈ l2, qKey f ≤ qKey g))
    ∧ (videoCandidates formats = [] →
      selectFormat formats "video" itagParam
        = formats.find? (fun f => f.hasVideo && f.hasAudio)) := by
  have hsel : selectFormat formats "video" itagParam = defaultSelect formats "video" :=
    selectFormat_of_explicit_none formats "video" itagParam hx
  rw [defaultSelect_video_eq formats hq] at hsel
  constructor
  · intro hne
    cases hfm : firstMaxBy qKey (videoCandidates formats) with
    | none => exact absurd ((firstMaxBy_eq_none_iff _ _).mp hfm) hne
    | some g =>
      rw [hfm] at hsel
      obtain ⟨l1, l2, hdec, hlt, hle⟩ := firstMaxBy_spec qKey _ g hfm
      exact ⟨g, l1, l2, hsel, hdec, hlt, hle⟩
  · intro hnil
    rw [(firstMaxBy_eq_none_iff qKey (videoCandidates formats)).mpr hnil] at hsel
    exact hsel

/-- C1 witness: on the example list with labels 720p60, 1080p, 480p the
handler selects the 1080p entry. -/
theorem c1_video_default_selection_witness :
    selectFormat demoVideoList "video" none = some fmt1080
    ∧ (∃ g l1 l2, selectFormat demoVideoList "video" none = some g ∧
        videoCandidates demoVideoList = l1 ++ g :: l2 ∧
        (∀ f ∈ l1, qKey f < qKey g) ∧ (∀ f ∈ l2, qKey f ≤ qKey g)) :=
  ⟨by decide,
    (c1_video_default_selection demoVideoList none (by decide) (by decide)).1 (by decide)⟩

/-! ## C2: default audio selection -/

/-- C2.  With no usable explicit format id and kind audio, if the
audio-only candidate list is nonempty the handler selects the first
candidate, in the Resolver's native order, whose audio bit rate is
maximal: the candidate list splits as `l1 ++ g :: l2` with every format in
`l1` strictly below `g` and every format in `l2` at most `g`. -/
theorem c2_audio_default_selection (formats : List Format) (itagParam : Option String)
    (hx : explicitSelect formats itagParam = none)
    (hne : audioCandidates formats ≠ []) :
    ∃ g l1 l2, selectFormat formats "audio" itagParam = some g ∧
      audioCandidates formats = l1 ++ g :: l2 ∧
      (∀ f ∈ l1, aKey f < aKey g) ∧ (∀ f ∈ l2, aKey f ≤ aKey g) := by
  have hsel : selectFormat formats "audio" itagParam = defaultSelect formats "audio" :=
    selectFormat_of_explicit_none formats "audio" itagParam hx
  rw [defaultSelect_audio_eq formats] at hsel
  cases hfm : firstMaxBy aKey (audioCandidates formats) with
  | none => exact absurd ((firstMaxBy_eq_none_iff _ _).mp hfm) hne
  | some g =>
    rw [hfm] at hsel
    obtain ⟨l1, l2, hdec, hlt, hle⟩ := firstMaxBy_spec aKey _ g hfm
    exact ⟨g, l1, l2, hsel, hdec, hlt, hle⟩

/-- C2 witness: on the example audio-only list with bit rates 128000,
160000 and 96000 the handler selects the 160000 entry. -/
theorem c2_audio_default_selection_witness :
    selectFormat demoAudioList "audio" none = some fmtA160
    ∧ (∃ g l1 l2, selectFormat demoAudioList "audio" none = some g ∧
        audioCandidates demoAudioList = l1 ++ g :: l2 ∧
        (∀ f ∈ l1, aKey f < aKey g) ∧ (∀ f ∈ l2, aKey f ≤ aKey g)) :=
  ⟨by decide, c2_audio_default_selection demoAudioList none (by decide) (by decide)⟩

/-! ## C3: explicit format id -/

/-- C3 counterexample.  The claim says a request whose explicit format id
exists in the full list always gets exactly that format.  The handler,
however, guards the lookup with JavaScript truthiness of the parsed id, so
the id `0` is ignored even though a format with itag 0 is present, and the
default audio policy picks the other (higher-bit-rate) format instead. -/
theorem c3_explicit_itag_zero_counterexample :
    ([fmtItagZero, fmtA128] : List Format).find? (fun f => f.itag == 0) = some fmtItagZero
    ∧ selectFormat [fmtItagZero, fmtA128] "audio" (some "0") = some fmtA128
    ∧ fmtA128 ≠ fmtItagZero := by decide

/-- C3 as amended: if the explicit id parses to a nonzero number `n` and a
format with itag `n` exists in the full unfiltered list, the handler
selects exactly that format regardless of the requested kind; if no format
with itag `n` exists, the handler does not fail but applies the
default-quality policy for the requested kind. -/
theorem c3_explicit_itag_selection (formats : List Format) (ty : String) (s : String)
    (n : Int) (hs : jsNumber s = some n) (hn : n ≠ 0) :
    (∀ f, formats.find? (fun g => g.itag == n) = some f →
      selectFormat formats ty (some s) = some f)
    ∧ (formats.find? (fun g => g.itag == n) = none →
      selectFormat formats ty (some s) = defaultSelect formats ty) := by
  have hsne : s ≠ "" := by
    intro h
    rw [h] at hs
    have h0 : jsNumber "" = some 0 := by decide
    rw [h0] at hs
    injection hs with hs'
    exact hn hs'.symm
  have hex : explicitSelect formats (some s) = formats.find? (fun g => g.itag == n) := by
    simp only [explicitSelect, hs]
    rw [if_neg (by simp [hsne])]
    rw [if_neg (by simp [hn])]
  constructor
  · intro f hf
    simp only [selectFormat, hex, hf]
  · intro hf
    simp only [selectFormat, hex, hf]

/-- C3 witness: the explicit id "251" selects the audio-only itag-251
format even though the requested kind is video. -/
theorem c3_explicit_itag_selection_witness :
    selectFormat demoAudioList "video" (some "251") = some fmtA160 :=
  (c3_explicit_itag_selection demoAudioList "video" "251" 251 (by decide) (by decide)).1
    fmtA160 (by decide)

/-! ## C4: audio selection with no audio-only format -/

/-- C4 counterexample.  The claim says that with no audio-only format the
handler falls back to the first audio-capable format regardless of video
presence.  The code's fallback re-applies the very same audio-only
predicate, so for a list holding only a combined (audio and video) format
the audio selection finds nothing at all. -/
theorem c4_audio_fallback_counterexample :
    fmtCombinedOnly.hasAudio = true
    ∧ selectFormat [fmtCombinedOnly] "audio" none = none := by decide

/-- C4 as amended: for kind audio, when no format has an audio track
without a video track, the selection finds no format (the code's
`?? formats.find(...)` fallback uses the same audio-only predicate and so
never succeeds), which the caller surfaces as `NoMatchingFormat`. -/
theorem c4_audio_no_fallback (formats : List Format) (itagParam : Option String)
    (hx : explicitSelect formats itagParam = none)
    (hno : ∀ f ∈ formats, ¬(f.hasAudio = true ∧ f.hasVideo = false)) :
    selectFormat formats "audio" itagParam = none := by
  have hpred : ∀ f ∈ formats, ¬((f.hasAudio && !f.hasVideo) = true) := by
    intro f hf h
    exact hno f hf (by simpa [Bool.and_eq_true, Bool.not_eq_true'] using h)
  have hc : audioCandidates formats = [] := by
    simp only [audioCandidates, List.filter_eq_nil_iff]
    exact hpred
  have hfind : formats.find? (fun f => f.hasAudio && !f.hasVideo) = none := by
    rw [List.find?_eq_none]
    exact hpred
  rw [selectFormat_of_explicit_none formats "audio" itagParam hx,
    defaultSelect_audio_eq formats, hc]
  simpa [firstMaxBy] using hfind

/-- C4 witness: a single-element list holding a combined format has no
audio-only format, and audio selection indeed fails on it. -/
theorem c4_audio_no_fallback_witness :
    selectFormat [fmtCombinedOnly] "audio" (some "") = none :=
  c4_audio_no_fallback [fmtCombinedOnly] (some "") (by decide) (by decide)

/-! ## Handler-level helper lemmas -/

/-- A format is acceptable for a requested kind exactly when the kind's
default policy (filter or fallback predicate) can consider it: audio-only
for kind audio, both tracks for kind video. -/
def kindAcceptable (ty : String) (f : Format) : Bool :=
  if ty == "audio" then f.hasAudio && !f.hasVideo else f.hasVideo && f.hasAudio

/-- When no format is acceptable for the requested kind, the default
policy finds nothing: the candidate filter is empty and the fallback
`find?` fails too. -/
theorem defaultSelect_none_of_unacceptable (formats : List Format) (ty : String)
    (hno : ∀ f ∈ formats, kindAcceptable ty f = false) :
    defaultSelect formats ty = none := by
  by_cases hty : (ty == "audio") = true
  · have hpred : ∀ f ∈ formats, ¬((f.hasAudio && !f.hasVideo) = true) := by
      intro f hf h
      have hk := hno f hf
      rw [kindAcceptable, if_pos hty] at hk
      rw [hk] at h
      cases h
    have hc : audioCandidates formats = [] := by
      simp only [audioCandidates, List.filter_eq_nil_iff]
      exact hpred
    have hfind : formats.find? (fun f => f.hasAudio && !f.hasVideo) = none := by
      rw [List.find?_eq_none]
      exact hpred
    simp only [defaultSelect]
    rw [if_pos hty, hc]
    simpa [jsSort] using hfind
  · have hpred : ∀ f ∈ formats, ¬((f.hasVideo && f.hasAudio) = true) := by
      intro f hf h
      have hk := hno f hf
      rw [kindAcceptable, if_neg hty] at hk
      rw [hk] at h
      cases h
    have hc : videoCandidates formats = [] := by
      simp only [videoCandidates, List.filter_eq_nil_iff]
      intro f hf h
      apply hpred f hf
      simp only [Bool.and_eq_true] at h ⊢
      exact h.1
    have hfind : formats.find? (fun f => f.hasVideo && f.hasAudio) = none := by
      rw [List.find?_eq_none]
      exact hpred
    simp only [defaultSelect]
    rw [if_neg hty, hc]
    simpa [jsSort] using hfind

/-- Reduction of the download handler once the URL validates and the
Resolver's metadata call succeeds: the response is determined by the
selection result. -/
theorem GET_ok_reduction (r : Resolver) (url : String) (tp itag : Option String)
    (info : VideoInfo) (hv : r.validateURL url = true)
    (hi : r.getInfo url = Except.ok info) :
    GET r (some url) tp itag =
      match selectFormat info.formats (tp.getD "video") itag with
      | none => DownloadResponse.notFound "No matching format available for download."
      | some f =>
        DownloadResponse.ok (mimeHeaderValue f.mimeType)
          (attachmentHeaderValue info.videoDetails.title f.mimeType)
          (contentLengthHeader f.contentLength)
          (r.openStream url f.itag (streamFilter (tp.getD "video"))) := by
  simp [GET, handleDownload, hv, hi]

/-- The `'videoandaudio'` case of the library's format filter. -/
theorem filterFormats_va (formats : List Format) :
    filterFormats formats "videoandaudio"
      = formats.filter (fun f => f.hasVideo && f.hasAudio) := by
  simp only [filterFormats]
  rw [if_pos (by decide : (("videoandaudio" : String) == "videoandaudio") = true)]

/-- The `'audioonly'` case of the library's format filter. -/
theorem filterFormats_ao (formats : List Format) :
    filterFormats formats "audioonly"
      = formats.filter (fun f => f.hasAudio && !f.hasVideo) := by
  simp only [filterFormats]
  rw [if_neg (by decide : ¬ ((("audioonly" : String) == "videoandaudio") = true))]
  rw [if_pos (by decide : (("audioonly" : String) == "audioonly") = true)]

/-! ## Resolver fixtures -/

/-- A video-only format (no audio track). -/
def fmtVideoOnly : Format :=
  { itag := 137, hasAudio := false, hasVideo := true, container := "mp4",
    qualityLabel := some "1080p", audioBitrate := none, bitrate := some 3500000,
    audioSampleRate := none, mimeType := some "video/mp4; codecs=avc1",
    contentLength := some "3000" }

/-- Video details used by the resolver fixtures. -/
def demoDetails : VideoDetails :=
  { title := "Demo Video", authorName := "Demo Author",
    thumbnails := ["https://img.example/1.jpg"], lengthSeconds := "212" }

/-- Metadata whose only format is video-only. -/
def demoInfoVideoOnly : VideoInfo :=
  { videoDetails := demoDetails, formats := [fmtVideoOnly] }

/-- Metadata whose only format is a combined mp4 format. -/
def demoInfoCombined : VideoInfo :=
  { videoDetails := demoDetails, formats := [fmt720] }

/-- A resolver returning only a video-only format. -/
def demoResolverVideoOnly : Resolver :=
  { validateURL := fun u => u == "https://youtu.be/demo",
    getInfo := fun _ => Except.ok demoInfoVideoOnly,
    openStream := fun _ _ _ => [10, 20] }

/-- A resolver returning only a combined mp4 format. -/
def demoResolverCombined : Resolver :=
  { validateURL := fun u => u == "https://youtu.be/demo",
    getInfo := fun _ => Except.ok demoInfoCombined,
    openStream := fun _ _ _ => [10, 20, 30] }

/-! ## C5: NoMatchingFormat -/

/-- C5.  Under a validated URL and a successful Resolver metadata call,
the download handler answers the 404 `NoMatchingFormat` error exactly when
the selection (explicit lookup, then default policy with its fallbacks)
determines no format; in particular, with no usable explicit id and no
format acceptable for the requested kind, the handler answers that 404. -/
theorem c5_no_matching_format (r : Resolver) (url : String) (tp itag : Option String)
    (info : VideoInfo) (hv : r.validateURL url = true)
    (hi : r.getInfo url = Except.ok info) :
    (GET r (some url) tp itag
        = DownloadResponse.notFound "No matching format available for download."
      ↔ selectFormat info.formats (tp.getD "video") itag = none)
    ∧ (explicitSelect info.formats itag = none →
        (∀ f ∈ info.formats, kindAcceptable (tp.getD "video") f = false) →
        GET r (some url) tp itag
          = DownloadResponse.notFound "No matching format available for download.") := by
  have hred := GET_ok_reduction r url tp itag info hv hi
  constructor
  · constructor
    · intro h
      cases hsel : selectFormat info.formats (tp.getD "video") itag with
      | none => rfl
      | some f =>
        rw [hsel] at hred
        rw [hred] at h
        simp at h
    · intro hsel
      rw [hsel] at hred
      exact hred
  · intro hx hno
    have hd : defaultSelect info.formats (tp.getD "video") = none :=
      defaultSelect_none_of_unacceptable info.formats (tp.getD "video") hno
    have hsel : selectFormat info.formats (tp.getD "video") itag = none := by
      rw [selectFormat_of_explicit_none info.formats (tp.getD "video") itag hx, hd]
    rw [hsel] at hred
    exact hred

/-- C5 witness: a list holding only a video-only format has nothing
acceptable for kind audio, and the handler answers the 404 error. -/
theorem c5_no_matching_format_witness :
    GET demoResolverVideoOnly (some "https://youtu.be/demo") (some "audio") none
      = DownloadResponse.notFound "No matching format available for download." :=
  (c5_no_matching_format demoResolverVideoOnly "https://youtu.be/demo" (some "audio") none
    demoInfoVideoOnly (by decide) rfl).2 rfl (by decide)

/-! ## C7: invalid URL -/

/-- C7.  When URL validation fails, both endpoints answer the 400 error,
and neither consults the Resolver's metadata operation nor opens a stream:
the responses are unchanged under replacing `getInfo` and `openStream` by
arbitrary other functions. -/
theorem c7_invalid_url_rejected (v : String → Bool)
    (g g' : String → Except Unit VideoInfo)
    (st st' : String → Int → String → List Nat) (url : String)
    (tp itag : Option String) (h : v url = false) :
    GET (Resolver.mk v g st) (some url) tp itag
        = DownloadResponse.badRequest "Please provide a valid YouTube URL."
    ∧ GET (Resolver.mk v g st) (some url) tp itag
        = GET (Resolver.mk v g' st') (some url) tp itag
    ∧ POST (Resolver.mk v g st) (some url)
        = InfoResponse.badRequest "Please provide a valid YouTube URL."
    ∧ POST (Resolver.mk v g st) (some url) = POST (Resolver.mk v g' st') (some url) := by
  have hg : ∀ (g2 : String → Except Unit VideoInfo) (st2 : String → Int → String → List Nat),
      GET (Resolver.mk v g2 st2) (some url) tp itag
        = DownloadResponse.badRequest "Please provide a valid YouTube URL." := by
    intro g2 st2
    simp [GET, handleDownload, h]
  have hp : ∀ (g2 : String → Except Unit VideoInfo) (st2 : String → Int → String → List Nat),
      POST (Resolver.mk v g2 st2) (some url)
        = InfoResponse.badRequest "Please provide a valid YouTube URL." := by
    intro g2 st2
    simp [POST, h]
  exact ⟨hg g st, by rw [hg g st, hg g' st'], hp g st, by rw [hp g st, hp g' st']⟩

/-- C7 witness at the concrete input "not a url" with an always-rejecting
validator and two resolvers differing in their metadata and stream
operations. -/
theorem c7_invalid_url_rejected_witness :
    GET (Resolver.mk (fun _ => false) (fun _ => Except.error ()) (fun _ _ _ => []))
        (some "not a url") none none
      = DownloadResponse.badRequest "Please provide a valid YouTube URL."
    ∧ GET (Resolver.mk (fun _ => false) (fun _ => Except.error ()) (fun _ _ _ => []))
        (some "not a url") none none
      = GET (Resolver.mk (fun _ => false) (fun _ => Except.ok demoInfoCombined)
          (fun _ _ _ => [5])) (some "not a url") none none
    ∧ POST (Resolver.mk (fun _ => false) (fun _ => Except.error ()) (fun _ _ _ => []))
        (some "not a url")
      = InfoResponse.badRequest "Please provide a valid YouTube URL."
    ∧ POST (Resolver.mk (fun _ => false) (fun _ => Except.error ()) (fun _ _ _ => []))
        (some "not a url")
      = POST (Resolver.mk (fun _ => false) (fun _ => Except.ok demoInfoCombined)
          (fun _ _ _ => [5])) (some "not a url") :=
  c7_invalid_url_rejected (fun _ => false) (fun _ => Except.error ())
    (fun _ => Except.ok demoInfoCombined) (fun _ _ _ => []) (fun _ _ _ => [5])
    "not a url" none none rfl

/-! ## C9: response headers -/

/-- C9.  For a successfully selected format the response is the 200
stream whose `Content-Type` is the format's MIME type with parameters
stripped (a missing MIME type defaulting to `application/octet-stream`),
and whose `Content-Length` is the format's declared byte length exactly
when one is known (a missing or empty declared length omits the
header). -/
theorem c9_download_headers (r : Resolver) (url : String) (tp itag : Option String)
    (info : VideoInfo) (f : Format) (hv : r.validateURL url = true)
    (hi : r.getInfo url = Except.ok info)
    (hs : selectFormat info.formats (tp.getD "video") itag = some f) :
    GET r (some url) tp itag =
      DownloadResponse.ok (mimeHeaderValue f.mimeType)
        (attachmentHeaderValue info.videoDetails.title f.mimeType)
        (contentLengthHeader f.contentLength)
        (r.openStream url f.itag (streamFilter (tp.getD "video")))
    ∧ (∀ s, f.contentLength = some s → s ≠ "" → contentLengthHeader f.contentLength = some s)
    ∧ (f.contentLength = none → contentLengthHeader f.contentLength = none)
    ∧ (f.contentLength = some "" → contentLengthHeader f.contentLength = none)
    ∧ (∀ m, f.mimeType = some m → mimeHeaderValue f.mimeType = stripParams m) := by
  refine ⟨?_, ?_, ?_, ?_, ?_⟩
  · rw [GET_ok_reduction r url tp itag info hv hi, hs]
  · intro s hcl hne
    rw [hcl]
    simp [contentLengthHeader, hne]
  · intro hcl
    rw [hcl]
    rfl
  · intro hcl
    rw [hcl]
    simp [contentLengthHeader]
  · intro m hm
    rw [hm]
    rfl

/-- C9 witness: the combined-format fixture yields the 200 response with
its MIME type stripped of parameters and its declared length `"2000"`
in the `Content-Length` header. -/
theorem c9_download_headers_witness :
    GET demoResolverCombined (some "https://youtu.be/demo") none none
      = DownloadResponse.ok (mimeHeaderValue fmt720.mimeType)
        (attachmentHeaderValue demoDetails.title fmt720.mimeType)
        (contentLengthHeader fmt720.contentLength)
        (demoResolverCombined.openStream "https://youtu.be/demo" fmt720.itag
          (streamFilter "video"))
    ∧ contentLengthHeader fmt720.contentLength = some "2000" :=
  ⟨(c9_download_headers demoResolverCombined "https://youtu.be/demo" none none
      demoInfoCombined fmt720 (by decide) rfl (by decide)).1,
    (c9_download_headers demoResolverCombined "https://youtu.be/demo" none none
      demoInfoCombined fmt720 (by decide) rfl (by decide)).2.1 "2000" rfl (by decide)⟩

/-! ## C10: the type parameter -/

/-- C10.  An absent `type` query parameter and any value other than the
exact string "audio" behave as kind video: the whole download response
equals the one for `type=video`, and the stream filter passed to the
Resolver is `'videoandaudio'`. -/
theorem c10_type_param_defaults_video (r : Resolver) (urlParam itagParam : Option String)
    (t : String) (h : t ≠ "audio") :
    GET r urlParam (some t) itagParam = GET r urlParam (some "video") itagParam
    ∧ GET r urlParam none itagParam = GET r urlParam (some "video") itagParam
    ∧ streamFilter t = "videoandaudio" := by
  have hfil : streamFilter t = "videoandaudio" := by
    simp only [streamFilter]
    rw [if_neg (by simp [h])]
  have hfil2 : streamFilter "video" = "videoandaudio" := by decide
  have hdef : ∀ formats, defaultSelect formats t = defaultSelect formats "video" := by
    intro formats
    simp only [defaultSelect]
    rw [if_neg (by simp [h]),
      if_neg (by decide : ¬ ((("video" : String) == "audio") = true))]
  have hsel : ∀ formats i, selectFormat formats t i = selectFormat formats "video" i := by
    intro formats i
    simp only [selectFormat, hdef]
  refine ⟨?_, ?_, hfil⟩
  · simp only [GET, Option.getD_some]
    simp only [handleDownload, hsel, hfil, hfil2]
  · rfl

/-- C10 witness: the value "Audio" (capitalised, hence not the exact
string "audio") behaves as video on the combined-format fixture. -/
theorem c10_type_param_defaults_video_witness :
    GET demoResolverCombined (some "https://youtu.be/demo") (some "Audio") none
      = GET demoResolverCombined (some "https://youtu.be/demo") (some "video") none
    ∧ GET demoResolverCombined (some "https://youtu.be/demo") none none
      = GET demoResolverCombined (some "https://youtu.be/demo") (some "video") none
    ∧ streamFilter "Audio" = "videoandaudio" :=
  c10_type_param_defaults_video demoResolverCombined (some "https://youtu.be/demo") none
    "Audio" (by decide)

/-! ## C6: client progress -/

/-- With a known (truthy) total, the per-chunk updates are exactly the
capped rounded percentages of the running byte counter. -/
theorem relayProgressLoop_map (total : Nat) (h : total ≠ 0) (chunks : List Nat) :
    ∀ acc : Nat, relayProgressLoop total acc chunks
      = (prefixSumsFrom acc chunks).map (fun rcv => min 99 (jsRoundPct rcv total)) := by
  induction chunks with
  | nil => intro acc; rfl
  | cons c cs ih =>
    intro acc
    simp [relayProgressLoop, prefixSumsFrom, h, ih]

/-- C6 counterexample.  The claim says the displayed progress after each
chunk is `min(99, floor(received/total*100))`; the code rounds instead of
flooring: with a declared total of 3 bytes and one received chunk of
2 bytes the code displays 67 while the claimed formula gives 66. -/
theorem c6_progress_round_counterexample :
    clientProgressTrace 3 [2] = [0, 67, 100]
    ∧ min 99 (2 * 100 / 3) = 66 := by decide

/-- C6 as amended: with a known declared total length the client displays,
after every received chunk, `min(99, round(received/total*100))` (rounding
half up, as `Math.round` does), so the displayed percentage stays below
100 while chunks are still arriving, and it becomes exactly 100 once the
chunk sequence is exhausted. -/
theorem c6_progress_protocol (total : Nat) (chunks : List Nat) (h : total ≠ 0) :
    relayProgressLoop total 0 chunks
      = (prefixSumsFrom 0 chunks).map (fun rcv => min 99 (jsRoundPct rcv total))
    ∧ (∀ p ∈ 0 :: relayProgressLoop total 0 chunks, p < 100)
    ∧ clientProgressTrace total chunks = 0 :: (relayProgressLoop total 0 chunks ++ [100])
    ∧ (clientProgressTrace total chunks).getLast? = some 100 := by
  have hmap := relayProgressLoop_map total h chunks 0
  refine ⟨hmap, ?_, rfl, ?_⟩
  · intro p hp
    rcases List.mem_cons.mp hp with rfl | hp2
    · exact Nat.zero_lt_succ 99
    · rw [hmap] at hp2
      obtain ⟨rcv, _, rfl⟩ := List.mem_map.mp hp2
      have hb : min 99 (jsRoundPct rcv total) ≤ 99 := min_le_left _ _
      omega
  · show (0 :: (relayProgressLoop total 0 chunks ++ [100])).getLast? = some 100
    rw [← List.cons_append]
    exact List.getLast?_concat _

/-- C6 witness: total 4 and chunks of sizes 1, 2, 1; the loop displays
25, 75, then 99 (the final full chunk is capped below 100), and the trace
ends at exactly 100. -/
theorem c6_progress_protocol_witness :
    relayProgressLoop 4 0 [1, 2, 1]
      = (prefixSumsFrom 0 [1, 2, 1]).map (fun rcv => min 99 (jsRoundPct rcv 4))
    ∧ (clientProgressTrace 4 [1, 2, 1]).getLast? = some 100 :=
  ⟨(c6_progress_protocol 4 [1, 2, 1] (by decide)).1,
    (c6_progress_protocol 4 [1, 2, 1] (by decide)).2.2.2⟩

/-! ## C8: the metadata format lists -/

/-- A combined format whose MIME type contains "mp4" but whose container
field is not "mp4". -/
def fmtMovContainer : Format :=
  { itag := 59, hasAudio := true, hasVideo := true, container := "mov",
    qualityLabel := some "480p", audioBitrate := some 96, bitrate := some 600000,
    audioSampleRate := none, mimeType := some "video/mp4; codecs=avc1",
    contentLength := some "600" }

/-- C8 counterexample.  The claim says every entry of the combined list
comes from a format in the canonical mp4 container; the code filters on
the MIME type containing "mp4" instead of on the container field, so a
format whose container is "mov" but whose MIME type mentions mp4 still
enters the combined list. -/
theorem c8_mp4_container_counterexample :
    infoMp4Formats [fmtMovContainer] = [mapVideoSummary fmtMovContainer]
    ∧ fmtMovContainer.container ≠ "mp4"
    ∧ ([fmtMovContainer] : List Format).filter (fun f => f.container == "mp4") = [] := by
  decide

/-- C8 as amended: every entry of the metadata service's combined list
comes from a source format with both an audio and a video track whose
MIME type contains "mp4" (rather than one whose container field is mp4),
and every entry of the audio-only list comes from a source format with an
audio track and no video track; this holds for every format list. -/
theorem c8_format_list_invariant (formats : List Format) :
    (∀ e ∈ infoMp4Formats formats, ∃ f, f ∈ formats ∧ f.hasVideo = true ∧ f.hasAudio = true
      ∧ (∃ m, f.mimeType = some m ∧ jsIncludes m "mp4" = true) ∧ e = mapVideoSummary f)
    ∧ (∀ e ∈ infoAudioFormats formats, ∃ f, f ∈ formats ∧ f.hasAudio = true
      ∧ f.hasVideo = false ∧ e = mapAudioSummary f) := by
  constructor
  · intro e he
    simp only [infoMp4Formats, List.mem_map] at he
    obtain ⟨f, hf, rfl⟩ := he
    rw [List.mem_filter] at hf
    obtain ⟨hf1, hmime⟩ := hf
    rw [filterFormats_va, List.mem_filter] at hf1
    obtain ⟨hmem, hva⟩ := hf1
    rw [Bool.and_eq_true] at hva
    refine ⟨f, hmem, hva.1, hva.2, ?_, rfl⟩
    cases hmt : f.mimeType with
    | none =>
      rw [hmt] at hmime
      simp at hmime
    | some m =>
      rw [hmt] at hmime
      exact ⟨m, rfl, by simpa using hmime⟩
  · intro e he
    simp only [infoAudioFormats, List.mem_map] at he
    obtain ⟨f, hf, rfl⟩ := he
    rw [List.mem_filter] at hf
    obtain ⟨hf1, _⟩ := hf
    rw [filterFormats_ao, List.mem_filter] at hf1
    obtain ⟨hmem, hao⟩ := hf1
    rw [Bool.and_eq_true] at hao
    refine ⟨f, hmem, hao.1, ?_, rfl⟩
    revert hao
    cases f.hasVideo <;> simp

/-- C8 witness: the combined-list entry built from the combined mp4
fixture traces back to a both-track source format whose MIME type
contains "mp4". -/
theorem c8_format_list_invariant_witness :
    ∃ f, f ∈ [fmt720] ∧ f.hasVideo = true ∧ f.hasAudio = true
      ∧ (∃ m, f.mimeType = some m ∧ jsIncludes m "mp4" = true)
      ∧ mapVideoSummary fmt720 = mapVideoSummary f :=
  (c8_format_list_invariant [fmt720]).1 (mapVideoSummary fmt720) (by decide)
